import Mathlib

/-!
Verification development for the follicleJntsTool repository
(follicleJnts.py, follicleJnts_UI.py, customQueries.py).

The Python source is shallowly embedded: pure computations become Lean
functions, attribute-mutating methods become explicit state-passing
functions, Python exceptions become an error type threaded through
Except, and Python floats become rationals (all arithmetic involved is
exact on the inputs considered).  Each definition is translated from
exactly one place in the source, cited in its doc comment.
-/

namespace FollicleJnts

/-- Python exception classes raised by the modelled code paths. -/
inductive PyErr where
  | assertionError (msg : String)
  | attributeError (msg : String)
  | typeError (msg : String)
  | standardError (msg : String)
  | nameError (msg : String)
deriving DecidableEq, Repr

/-! ## Type descriptor (follicleJnts.py, class FolJntType, lines 29-148) -/

/-- The keys of FolJntType._typeNames (follicleJnts.py lines 52-57), i.e.
FolJntType.validTypes.  Membership is all that matters below. -/
def validTypes : List String := ["t/f", "t/f-j", "t-j/f", "j/f"]

/-- The value FolJntType._typeNames maps a valid type string to
(follicleJnts.py lines 52-57). -/
def typeNames (typeString : String) : String :=
  if typeString = "t/f" then "defaultFollicle"
  else if typeString = "t/f-j" then "follicleJointStandard"
  else if typeString = "t-j/f" then "follicleJointReverse"
  else "follicleJoint"

/-- A validated FolJntType instance: the stored _typeString together with
the controlNode tag assigned by FolJntType.set (follicleJnts.py
lines 133-148). -/
structure FolJntType where
  typeString : String
  controlNode : Char
deriving DecidableEq, Repr

/-- FolJntType.set (follicleJnts.py lines 133-148): assert the string is
one of the four valid type strings, store it, and set the default control
node tag to the joint when a joint exists, else the follicle. -/
def FolJntType.set (typeString : String) : Except PyErr FolJntType :=
  if typeString ∈ validTypes then
    .ok { typeString := typeString
          controlNode := if 'j' ∈ typeString.toList then 'j' else 'f' }
  else
    .error (.assertionError
      (typeString ++ " is not a valid follicle joint type string!"))

/-- FolJntType.__init__ (follicleJnts.py lines 67-77): attributes are
populated via set only when the given typeString is truthy; a none or
empty-string argument leaves the descriptor unset (result none) without
raising. -/
def FolJntType.new (typeString : Option String) :
    Except PyErr (Option FolJntType) :=
  match typeString with
  | none => .ok none
  | some s => if s.isEmpty then .ok none else (FolJntType.set s).map some

/-- FolJntType.hasTransform (follicleJnts.py lines 101-103):
the character 't' occurs in the type string. -/
def FolJntType.hasTransform (t : FolJntType) : Bool :=
  't' ∈ t.typeString.toList

/-- FolJntType.hasJoint (follicleJnts.py lines 105-107):
the character 'j' occurs in the type string. -/
def FolJntType.hasJoint (t : FolJntType) : Bool :=
  'j' ∈ t.typeString.toList

/-- FolJntType.topTransform (follicleJnts.py lines 113-120): 't' when the
type has a transform, else 'j' when it has a joint, else AttributeError. -/
def FolJntType.topTransform (t : FolJntType) : Except PyErr Char :=
  if t.hasTransform then .ok 't'
  else if t.hasJoint then .ok 'j'
  else .error (.attributeError "Error identifying top transform!")

/-- Python str.partition(sep)[0] for the two-character separator "/f"
used at follicleJnts.py line 124: the characters before the first
occurrence of "/f" (the whole string when "/f" does not occur). -/
def partitionBeforeSlashF : List Char → List Char
  | [] => []
  | '/' :: 'f' :: _ => []
  | c :: rest => c :: partitionBeforeSlashF rest

/-- FolJntType.follicleParent (follicleJnts.py lines 122-124):
typeString.partition('/f')[0][-1] - the last character of the part of the
type string before the first occurrence of "/f"; none models the
IndexError Python raises when that part is empty. -/
def FolJntType.follicleParent (t : FolJntType) : Option Char :=
  (partitionBeforeSlashF t.typeString.toList).getLast?

/-! ## Reversible-call wrapper
(follicleJnts_UI.py, undoableCaller.runUndoable, lines 147-174) -/

/-- Observable host-side events emitted by one runUndoable call. -/
inductive UIEvent where
  | openChunk
  | callFn
  | closeChunk
  | deferredError (msg : String)
deriving DecidableEq, Repr

/-- The flattened single-line description built at follicleJnts_UI.py
line 170: semicolon-join of the exception args with newlines replaced by
spaces. -/
def flattenErrArgs (args : List String) : String :=
  String.mk ((List.intercalate "; ".toList (args.map String.toList)).map
    (fun c => if c = '\n' then ' ' else c))

/-- The deferred MEL error message of follicleJnts_UI.py lines 169-171:
exception class name, colon, flattened args. -/
def deferredErrorMsg (excName : String) (args : List String) : String :=
  excName ++ ": " ++ flattenErrArgs args

/-- undoableCaller.runUndoable (follicleJnts_UI.py lines 147-174), as a
function of the wrapped call's outcome (none = the wrapped uiFunction
returns; some (name, args) = it raises an exception with that class name
and argument list).  Returns the event trace and the exception that
propagates out of runUndoable to its caller.

Control flow of the source: open the undo chunk; call uiFunction inside
try; on exception, store exc_info and re-raise; in the finally block,
close the undo chunk, queue the deferred error message when an exception
was stored, and finally execute a bare return statement.  By Python
semantics a return inside a finally block discards the exception that is
propagating, so runUndoable always returns None to its caller (the
source comments this: "Return None to prevent 'raise' from breaking the
QT win"). -/
def runUndoable (outcome : Option (String × List String)) :
    List UIEvent × Option (String × List String) :=
  match outcome with
  | none =>
      ([.openChunk, .callFn, .closeChunk], none)
  | some (excName, args) =>
      ([.openChunk, .callFn, .closeChunk,
        .deferredError (deferredErrorMsg excName args)], none)

/-! ## freeze (follicleJnts.py, FollicleJoint.freeze, lines 915-947) -/

/-- The scene state freeze reads and writes: whether the control node is
the follicle itself, whether the control node has the base parameter
attribute 'pu' (the attributeQuery of line 923), the control node's
offset (ou, ov) and base (pu, pv) attribute values, whether each offset
attribute accepts a set (false models the RuntimeError of lines 929-931
for locked or connected attributes), and the follicle node's currently
resolved parameter values (pu, pv). -/
structure FreezeState where
  ctrlIsFol : Bool
  ctrlHasParamAttr : Bool
  ou : ℚ
  ov : ℚ
  pu : ℚ
  pv : ℚ
  ouSettable : Bool
  ovSettable : Bool
  folPu : ℚ
  folPv : ℚ
deriving DecidableEq, Repr

/-- How one freeze call ends: returned True after freezing; raised
StandardError because an offset set failed (lines 931-937); printed the
offsets-already-zero skip message and returned None (lines 942-944);
printed the no-offset-attribute skip message and returned None
(lines 945-947). -/
inductive FreezeOutcome where
  | frozen
  | errLockedConnected
  | skippedZero
  | skippedNoAttr
deriving DecidableEq, Repr

/-- FollicleJoint.freeze (follicleJnts.py lines 915-947) as a state
transformer.  Guard: control node differs from the follicle and has the
'pu' attribute; then, when either offset is non-zero, capture the
follicle's resolved parameters (line 925), set ou to 0 then ov to 0
(raising on the first failure, after which nothing further changes), and
on success write the captured values into the control node's pu and pv. -/
def freeze (s : FreezeState) : FreezeState × FreezeOutcome :=
  if !s.ctrlIsFol && s.ctrlHasParamAttr then
    if s.ou ≠ 0 ∨ s.ov ≠ 0 then
      let endVals := (s.folPu, s.folPv)
      if s.ouSettable then
        let s1 := { s with ou := 0 }
        if s.ovSettable then
          let s2 := { s1 with ov := 0 }
          ({ s2 with pu := endVals.1, pv := endVals.2 }, .frozen)
        else (s1, .errLockedConnected)
      else (s, .errLockedConnected)
    else (s, .skippedZero)
  else (s, .skippedNoAttr)

/-! ## Mirror-value copy
(follicleJnts.py, FollicleJoint.copyValuesToMirror, lines 949-1046) -/

/-- One entry of the toFromAttrs list built by copyValuesToMirror:
the source attribute's value, the entry's uvIndex tag, and, for the
length-5 base-value entries only, the (midVal, min, max) data carried in
positions 3 and 4 (follicleJnts.py lines 971-1021). -/
structure MirrorEntry where
  val : ℚ
  uvIndex : ℕ
  midRange : Option (ℚ × ℚ × ℚ)
deriving DecidableEq, Repr

/-- The axisVal computed at follicleJnts.py lines 967-968:
1 for axis 'v', else 0. -/
def axisValOf (axis : Char) : ℕ := if axis = 'v' then 1 else 0

/-- The value written to the destination attribute for one entry of
toFromAttrs, per the loop at follicleJnts.py lines 1024-1042 (assuming
isFreeToChange allows the write): midValTmp is the entry's midVal when
present, else 0; the value is reflected (2*midValTmp - val) exactly when
the entry's uvIndex equals axisVal; finally it is clamped between the
entry's min and max when those are present. -/
def entryWrittenValue (axisVal : ℕ) (e : MirrorEntry) : ℚ :=
  let midValTmp : ℚ := match e.midRange with
    | some (m, _, _) => m
    | none => 0
  let v1 := if e.uvIndex = axisVal then 2 * midValTmp - e.val else e.val
  match e.midRange with
  | some (_, minVal, maxVal) => min (max v1 minVal) maxVal
  | none => v1

/-- The two base-value entries appended at follicleJnts.py lines 975-979
when baseValues is requested: (pu, uvIndex 0, midVal and uvRange) and
(pv, uvIndex 1, midVal and uvRange). -/
def baseEntries (midVal : ℚ) (uvRange : ℚ × ℚ) (pu pv : ℚ) :
    List MirrorEntry :=
  [⟨pu, 0, some (midVal, uvRange.1, uvRange.2)⟩,
   ⟨pv, 1, some (midVal, uvRange.1, uvRange.2)⟩]

/-- The two offset entries appended at follicleJnts.py lines 982-988 when
the offsets category is selected and both units expose the offset
attributes: with opposingOffsets the entries carry uvIndex 2; without it
they carry uvIndex 0 (for ou) and 1 (for ov).  Offset entries have
length 3, so they carry no mid or range data. -/
def offsetEntries (opposingOffsets : Bool) (ou ov : ℚ) : List MirrorEntry :=
  if opposingOffsets then [⟨ou, 2, none⟩, ⟨ov, 2, none⟩]
  else [⟨ou, 0, none⟩, ⟨ov, 1, none⟩]

/-- The (ou, ov) pair written onto the mirror unit's control node by
copyValuesToMirror for the offsets category, with both destination
attributes free to change: each offset entry is put through the write
loop of lines 1024-1042. -/
def copyOffsetsToMirror (axis : Char) (opposingOffsets : Bool)
    (ou ov : ℚ) : ℚ × ℚ :=
  match (offsetEntries opposingOffsets ou ov).map
      (entryWrittenValue (axisValOf axis)) with
  | [u, v] => (u, v)
  | _ => (0, 0)

/-! ## Transfer to patch
(follicleJnts.py, FollicleJoint.transferToPatch, lines 1048-1089) -/

/-- The module-level names bound in follicleJnts.py (its imports, its two
classes, and its top-level functions), i.e. the global namespace a name
lookup inside transferToPatch falls back to. -/
def follicleJntsModuleNames : List String :=
  ["sys", "re", "string", "pm", "cq",
   "FolJntType", "FollicleJoint",
   "getClosestUVs", "normalisedNurbsUV", "splitNumberedName",
   "joinNumberedName", "connectAttrAdd", "_anyObjsExist",
   "getFollicleJoints", "newFollicle", "newFollicleGrid",
   "newFollicleAtClosestPt", "mirrorFollicleOffsets", "freezeOffsets",
   "duplicateFollicles", "mirrorFollicles", "transferFolliclesToPatch",
   "addAsOffsetDriver", "autoRename", "multiRename", "getSubNodes"]

/-- The local names bound inside FollicleJoint.transferToPatch when
line 1064 executes: the method's parameters, the re-bound patch, the
patchIsNurb flag of line 1059, and outUVVals bound at line 1063. -/
def transferToPatchLocalNames : List String :=
  ["self", "patch", "newUV", "closestPt", "useSmoothedMesh",
   "patchIsNurb", "outUVVals"]

/-- The closest-point uv resolution step of FollicleJoint.transferToPatch
(follicleJnts.py lines 1062-1064).  When closestPt is requested and no
explicit newUV was supplied, line 1063 binds outUVVals to the uv list
returned by getClosestUVs (passed in here as computedUVs), and line 1064
then assigns newUV from the name outVals - which is neither a local of
the method nor a module-level global nor a builtin, so the lookup raises
NameError.  The value branch below is what line 1064 would produce if the
name resolved; it is unreachable because the membership test is false. -/
def transferToPatchNewUV (closestPt : Bool) (newUV : Option (ℚ × ℚ))
    (computedUVs : List (ℚ × ℚ)) : Except PyErr (Option (ℚ × ℚ)) :=
  if closestPt ∧ newUV = none then
    if "outVals" ∈ transferToPatchLocalNames ∨
        "outVals" ∈ follicleJntsModuleNames then
      .ok computedUVs.head?
    else
      .error (.nameError "global name 'outVals' is not defined")
  else .ok newUV

/-- The base-parameter write of FollicleJoint.transferToPatch
(follicleJnts.py lines 1069-1078), reachable when closestPt is true and
an explicit newUV was supplied: the offset implied by (follicle's live
parameter - control node's base parameter) is subtracted per axis from
newUV before the result is written into the control node's pu and pv. -/
def transferWriteUV (newUV : ℚ × ℚ) (folPu folPv ctrlPu ctrlPv : ℚ) :
    ℚ × ℚ :=
  let ofsU := folPu - ctrlPu
  let ofsV := folPv - ctrlPv
  (newUV.1 - ofsU, newUV.2 - ofsV)

/-! ## UV normalization
(follicleJnts.py, normalisedNurbsUV, lines 1334-1361) -/

/-- The data normalisedNurbsUV reads from its patch argument: whether the
shape node is of type nurbsSurface, and its U and V parameter ranges
(minValueU, maxValueU, minValueV, maxValueV). -/
structure Patch where
  isNurbsSurface : Bool
  minU : ℚ
  maxU : ℚ
  minV : ℚ
  maxV : ℚ
deriving DecidableEq, Repr

/-- normalisedNurbsUV (follicleJnts.py lines 1334-1361), dropping the
print-only giveWarning diagnostics: a non-NURBS patch raises
StandardError; a NURBS patch whose parameter range is exactly [0,1] on
both axes returns the uv unchanged, as does any patch when warningOnly
is set; otherwise each axis is rescaled as raw / (range length) + range
minimum (lines 1350-1354). -/
def normalisedNurbsUV (patch : Patch) (uv : ℚ × ℚ)
    (warningOnly : Bool) : Except PyErr (ℚ × ℚ) :=
  if patch.isNurbsSurface then
    if ¬(patch.minU = 0 ∧ patch.maxU = 1 ∧
         patch.minV = 0 ∧ patch.maxV = 1) then
      if ¬warningOnly then
        let uLength := patch.maxU - patch.minU
        let vLength := patch.maxV - patch.minV
        .ok (uv.1 / uLength + patch.minU, uv.2 / vLength + patch.minV)
      else .ok uv
    else .ok uv
  else .error (.standardError "Patch must be a nurbSurface shape PyNode!")

/-! ## Grid creation (follicleJnts.py, newFollicleGrid, lines 1534-1599) -/

/-- The uv rectangle [u0,u1] x [v0,v1] the grid is distributed over
(the uvRange argument after its per-component defaulting to
[0.0, 1.0, 0.0, 1.0] at follicleJnts.py lines 1571-1576). -/
structure UVRange where
  u0 : ℚ
  u1 : ℚ
  v0 : ℚ
  v1 : ℚ
deriving DecidableEq, Repr

/-- The default full-unit-square uv range. -/
def uvRangeDefault : UVRange := ⟨0, 1, 0, 1⟩

/-- newFollicleGrid (follicleJnts.py lines 1534-1599), reduced to the uv
pairs it creates units at.  The validation loop of lines 1549-1551
raises StandardError exactly when uvRows[i] - edgeBounded[i] == 0 on
either axis.  Otherwise the nested loops of lines 1581-1594 create one
unit per (i, j) with i < uvRows[0] and j < uvRows[1], at
u = u0 + normU*(u1-u0) where normU = (i + (1-eb)/2) / (rows - eb), and
the same formula on the V axis.  Row counts and edge-bounded flags are
integers as in the source (range of a non-positive count is empty). -/
def newFollicleGrid (uvRows : Int × Int) (edgeBounded : Int × Int)
    (uvRange : UVRange) : Except PyErr (List (ℚ × ℚ)) :=
  if uvRows.1 - edgeBounded.1 = 0 ∨ uvRows.2 - edgeBounded.2 = 0 then
    .error (.standardError "Minimum 2 rows for edge-bounded rows!")
  else
    .ok ((List.range uvRows.1.toNat).flatMap fun i =>
      let normU : ℚ :=
        ((i : ℚ) + (1 - (edgeBounded.1 : ℚ)) / 2) /
          ((uvRows.1 : ℚ) - (edgeBounded.1 : ℚ))
      let u := uvRange.u0 + normU * (uvRange.u1 - uvRange.u0)
      (List.range uvRows.2.toNat).map fun j =>
        let normV : ℚ :=
          ((j : ℚ) + (1 - (edgeBounded.2 : ℚ)) / 2) /
            ((uvRows.2 : ℚ) - (edgeBounded.2 : ℚ))
        let v := uvRange.v0 + normV * (uvRange.v1 - uvRange.v0)
        (u, v))

/-! ## Naming utilities
(follicleJnts.py, splitNumberedName lines 1364-1394 and
joinNumberedName lines 1397-1433).  Python strings are embedded as
List Char so that concatenation reasoning is by plain list lemmas. -/

/-- string.digits, the default findChars of splitNumberedName
(follicleJnts.py line 1372). -/
def stringDigits : List Char :=
  ['0', '1', '2', '3', '4', '5', '6', '7', '8', '9']

/-- The findChars actually scanned for: the alternateFindChar argument
when it is truthy (given and non-empty), else string.digits
(follicleJnts.py lines 1369-1372). -/
def findCharsOf (alternateFindChar : Option (List Char)) : List Char :=
  match alternateFindChar with
  | some l => if l.isEmpty then stringDigits else l
  | none => stringDigits

/-- The loop state of splitNumberedName (follicleJnts.py lines 1376-1378):
the three collected pieces splitStrs[0..2], the current slot index i, and
the digitLast flag. -/
structure SplitAcc where
  s0 : List Char
  s1 : List Char
  s2 : List Char
  i : ℕ
  digitLast : Bool
deriving DecidableEq, Repr

/-- Line 1389 of follicleJnts.py: prepend the character to splitStrs[i]
(using the slot index after this iteration's update). -/
def splitPrepend (c : Char) (acc : SplitAcc) : SplitAcc :=
  match acc.i with
  | 0 => { acc with s0 := c :: acc.s0 }
  | 1 => { acc with s1 := c :: acc.s1 }
  | _ => { acc with s2 := c :: acc.s2 }

/-- One iteration of the loop at follicleJnts.py lines 1379-1389: when
i > 0, decrement i on a transition between matching and non-matching
characters and update digitLast; then prepend the character to slot i. -/
def splitStep (findChars : List Char) (acc : SplitAcc) (c : Char) :
    SplitAcc :=
  let acc' :=
    if acc.i > 0 then
      if c ∈ findChars then
        if !acc.digitLast then
          { acc with i := acc.i - 1, digitLast := true }
        else { acc with digitLast := true }
      else
        if acc.digitLast then
          { acc with i := acc.i - 1, digitLast := false }
        else { acc with digitLast := false }
    else acc
  splitPrepend c acc'

/-- splitNumberedName (follicleJnts.py lines 1364-1394): fold the loop
body over the reversed name starting from ["", "", ""], i = 2,
digitLast = False; if no matching character was collected, return the
whole name as the first piece (lines 1392-1393). -/
def splitNumberedName (name : List Char)
    (alternateFindChar : Option (List Char) := none) :
    List Char × List Char × List Char :=
  let findChars := findCharsOf alternateFindChar
  let acc := name.reverse.foldl (splitStep findChars) ⟨[], [], [], 2, false⟩
  if acc.s1.isEmpty then (name, [], []) else (acc.s0, acc.s1, acc.s2)

/-- Modelled from the spec's words (section 4.5, "Split numbered name"),
for comparison with splitNumberedName: scanning from the end, collect
trailing non-matching characters as the third piece, then the adjacent
run of matching characters (the last embedded run) as the second piece,
then the remainder as the first piece; if no matching run exists, the
whole input is the first piece with the others empty. -/
def splitNumberedNameRef (name : List Char) (findChars : List Char) :
    List Char × List Char × List Char :=
  let rev := name.reverse
  let sufR := rev.takeWhile (fun c => decide (c ∉ findChars))
  let rest := rev.dropWhile (fun c => decide (c ∉ findChars))
  let numR := rest.takeWhile (fun c => decide (c ∈ findChars))
  let preR := rest.dropWhile (fun c => decide (c ∈ findChars))
  if numR.isEmpty then (name, [], [])
  else (preR.reverse, numR.reverse, sufR.reverse)

/-- The num argument of joinNumberedName: Python passes an int or a
string here (follicleJnts.py lines 1417-1420). -/
inductive NumArg where
  | intNum (n : Int)
  | strNum (s : List Char)
deriving DecidableEq, Repr

/-- Python int() applied to a string argument at follicleJnts.py
line 1420 ("Remove pre-existing padding, +-"): optional sign followed by
at least one digit; none models the ValueError on anything else. -/
def pyInt (s : List Char) : Option Int :=
  let (sign, digits) : Int × List Char :=
    match s with
    | '-' :: rest => (-1, rest)
    | '+' :: rest => (1, rest)
    | _ => (1, s)
  if digits.isEmpty ∨ ¬digits.all (fun c => c ∈ stringDigits) then none
  else
    some (sign * (digits.foldl (fun acc c => 10 * acc + ((c.toNat : Int) - 48)) 0))

/-- The zero-padded number string "{num:0>{pad}}" of follicleJnts.py
line 1421: the decimal rendering of the int, left-filled with '0' up to
the padding width. -/
def padNum (n : Int) (numPadding : ℕ) : List Char :=
  let s := (toString n).toList
  List.replicate (numPadding - s.length) '0' ++ s

/-- The numStr computed at follicleJnts.py lines 1416-1421: empty when
num is None or the empty string, else the zero-padded rendering (with
int() conversion first for string arguments). -/
def numStrOf (num : Option NumArg) (numPadding : ℕ) :
    Except PyErr (List Char) :=
  match num with
  | none => .ok []
  | some (.intNum n) => .ok (padNum n numPadding)
  | some (.strNum s) =>
      if s.isEmpty then .ok []
      else match pyInt s with
        | some n => .ok (padNum n numPadding)
        | none => .error (.standardError
            "ValueError: invalid literal for int()")

/-- Python str.replace(old, new) for a single-character pattern, as used
by nameDef.replace('#', numStr) at follicleJnts.py line 1428: every
occurrence is replaced. -/
def replaceChar (s : List Char) (old : Char) (new : List Char) :
    List Char :=
  s.flatMap fun c => if c = old then new else [c]

/-- nameFormat.format(pre=..., num=..., suf=...) of follicleJnts.py
line 1433, for templates over the fields pre, num and suf (the only
templates the source uses: the default one and FolJntType.renameFormats):
scan the template, splicing in the corresponding argument at each field
reference. -/
def pyFormat : List Char → List Char → List Char → List Char → List Char
  | [], _, _, _ => []
  | '{' :: 'p' :: 'r' :: 'e' :: '}' :: rest, p, n, s =>
      p ++ pyFormat rest p n s
  | '{' :: 'n' :: 'u' :: 'm' :: '}' :: rest, p, n, s =>
      n ++ pyFormat rest p n s
  | '{' :: 's' :: 'u' :: 'f' :: '}' :: rest, p, n, s =>
      s ++ pyFormat rest p n s
  | c :: rest, p, n, s => c :: pyFormat rest p n s

/-- The default nameFormat "{pre}{num}{suf}" of follicleJnts.py
line 1399. -/
def defaultNameFormat : List Char := "{pre}{num}{suf}".toList

/-- joinNumberedName (follicleJnts.py lines 1397-1433).  Build numStr;
when a truthy nameDef is given, require it to contain '#' (TypeError
otherwise) and replace every '#' with numStr; else render the nameFormat
template with the falsy-defaulted pre and suf and the numStr. -/
def joinNumberedName (pre : Option (List Char)) (num : Option NumArg)
    (suf : Option (List Char)) (numPadding : ℕ)
    (nameFormat : List Char := defaultNameFormat)
    (nameDef : Option (List Char) := none) :
    Except PyErr (List Char) :=
  match numStrOf num numPadding with
  | .error e => .error e
  | .ok numStr =>
    match nameDef with
    | some nd =>
      if nd.isEmpty then
        .ok (pyFormat nameFormat (pre.getD []) numStr (suf.getD []))
      else if '#' ∉ nd then
        .error (.typeError
          "A nameTemplate must contain a # symbol for the number!")
      else .ok (replaceChar nd '#' numStr)
    | none =>
        .ok (pyFormat nameFormat (pre.getD []) numStr (suf.getD []))

/-! ## Helper lemmas for the splitNumberedName state machine -/

/-- While the loop is in slot 2 (collecting the trailing piece), each
non-matching character is prepended to splitStrs[2] and the state is
otherwise unchanged. -/
lemma foldl_split_suffix (fc : List Char) :
    ∀ (l : List Char), (∀ c ∈ l, c ∉ fc) → ∀ (s2 : List Char),
      l.foldl (splitStep fc) ⟨[], [], s2, 2, false⟩ =
        ⟨[], [], l.reverse ++ s2, 2, false⟩ := by
  intro l
  induction l with
  | nil => intro _ s2; simp
  | cons c cs ih =>
    intro h s2
    have hc : c ∉ fc := h c (by simp)
    have hstep : splitStep fc ⟨[], [], s2, 2, false⟩ c =
        ⟨[], [], c :: s2, 2, false⟩ := by
      simp [splitStep, splitPrepend, hc]
    rw [List.foldl_cons, hstep, ih (fun x hx => h x (by simp [hx]))]
    simp

/-- While the loop is in slot 1 (collecting the number run), each
matching character is prepended to splitStrs[1] and the state is
otherwise unchanged. -/
lemma foldl_split_num (fc : List Char) :
    ∀ (l : List Char), (∀ c ∈ l, c ∈ fc) → ∀ (s1 s2 : List Char),
      l.foldl (splitStep fc) ⟨[], s1, s2, 1, true⟩ =
        ⟨[], l.reverse ++ s1, s2, 1, true⟩ := by
  intro l
  induction l with
  | nil => intro _ s1 s2; simp
  | cons c cs ih =>
    intro h s1 s2
    have hc : c ∈ fc := h c (by simp)
    have hstep : splitStep fc ⟨[], s1, s2, 1, true⟩ c =
        ⟨[], c :: s1, s2, 1, true⟩ := by
      simp [splitStep, splitPrepend, hc]
    rw [List.foldl_cons, hstep, ih (fun x hx => h x (by simp [hx]))]
    simp

/-- Once the loop has reached slot 0, every remaining character is
prepended to splitStrs[0] unconditionally. -/
lemma foldl_split_rest (fc : List Char) :
    ∀ (l : List Char) (s0 s1 s2 : List Char) (dl : Bool),
      l.foldl (splitStep fc) ⟨s0, s1, s2, 0, dl⟩ =
        ⟨l.reverse ++ s0, s1, s2, 0, dl⟩ := by
  intro l
  induction l with
  | nil => intro s0 s1 s2 dl; simp
  | cons c cs ih =>
    intro s0 s1 s2 dl
    have hstep : splitStep fc ⟨s0, s1, s2, 0, dl⟩ c =
        ⟨c :: s0, s1, s2, 0, dl⟩ := by
      simp [splitStep, splitPrepend]
    rw [List.foldl_cons, hstep, ih]
    simp

/-- The head of a dropWhile result fails the predicate. -/
lemma dropWhile_head_eq_false {α : Type} (p : α → Bool) :
    ∀ (l : List α) (d : α) (tl : List α),
      l.dropWhile p = d :: tl → p d = false := by
  intro l
  induction l with
  | nil => intro d tl h; simp [List.dropWhile] at h
  | cons c cs ih =>
    intro d tl h
    by_cases hp : p c
    · rw [List.dropWhile_cons_of_pos hp] at h
      exact ih d tl h
    · rw [List.dropWhile_cons_of_neg hp] at h
      injection h with h1 _
      subst h1
      simpa using hp

/-- The loop of splitNumberedName computes exactly the from-the-end
decomposition described by the spec: trailing non-matching characters,
then the adjacent run of matching characters, then the remainder. -/
lemma splitNumberedName_eq_ref (name : List Char)
    (alt : Option (List Char)) :
    splitNumberedName name alt =
      splitNumberedNameRef name (findCharsOf alt) := by
  set fc := findCharsOf alt with hfc
  set q : Char → Bool := fun c => decide (c ∉ fc) with hq
  set p : Char → Bool := fun c => decide (c ∈ fc) with hp
  set rev := name.reverse with hrev
  have hsufR : ∀ c ∈ rev.takeWhile q, c ∉ fc := by
    intro c hc
    have := List.mem_takeWhile_imp hc
    simpa [hq] using this
  rcases hdrop : rev.dropWhile q with _ | ⟨d, tail⟩
  · -- No matching character occurs in the name.
    have hmach : rev.foldl (splitStep fc) ⟨[], [], [], 2, false⟩ =
        ⟨[], [], (rev.takeWhile q).reverse, 2, false⟩ := by
      conv_lhs =>
        rw [show rev = rev.takeWhile q ++ rev.dropWhile q from
          (List.takeWhile_append_dropWhile q rev).symm, hdrop]
      rw [List.append_nil, foldl_split_suffix fc _ hsufR []]
      simp
    simp only [splitNumberedName, splitNumberedNameRef, ← hfc, ← hrev,
      hmach, hdrop]
    simp
  · -- The name has a last run of matching characters, headed by d.
    have hd_mem : d ∈ fc := by
      have := dropWhile_head_eq_false q rev d tail hdrop
      simpa [hq] using this
    have hpd : p d = true := by simp [hp, hd_mem]
    have hnumtail : ∀ c ∈ tail.takeWhile p, c ∈ fc := by
      intro c hc
      have := List.mem_takeWhile_imp hc
      simpa [hp] using this
    have hstep_d : splitStep fc ⟨[], [], (rev.takeWhile q).reverse,
        2, false⟩ d =
        ⟨[], [d], (rev.takeWhile q).reverse, 1, true⟩ := by
      simp [splitStep, splitPrepend, hd_mem]
    have hmach1 : rev.foldl (splitStep fc) ⟨[], [], [], 2, false⟩ =
        tail.foldl (splitStep fc)
          ⟨[], [d], (rev.takeWhile q).reverse, 1, true⟩ := by
      conv_lhs =>
        rw [show rev = rev.takeWhile q ++ rev.dropWhile q from
          (List.takeWhile_append_dropWhile q rev).symm, hdrop]
      rw [List.foldl_append, foldl_split_suffix fc _ hsufR [],
        List.append_nil, List.foldl_cons, hstep_d]
    rcases hdrop2 : tail.dropWhile p with _ | ⟨e, preTail⟩
    · -- The matching run reaches the front of the name.
      have hmach2 : tail.foldl (splitStep fc)
          ⟨[], [d], (rev.takeWhile q).reverse, 1, true⟩ =
          ⟨[], (tail.takeWhile p).reverse ++ [d],
            (rev.takeWhile q).reverse, 1, true⟩ := by
        conv_lhs =>
          rw [show tail = tail.takeWhile p ++ tail.dropWhile p from
            (List.takeWhile_append_dropWhile p tail).symm, hdrop2]
        rw [List.append_nil, foldl_split_num fc _ hnumtail]
      simp only [splitNumberedName, splitNumberedNameRef, ← hfc, ← hrev,
        hmach1, hmach2, hdrop, hdrop2]
      simp [hq, hp, hd_mem, hpd, hdrop2, List.takeWhile_cons,
        List.dropWhile_cons, decide_not]
    · -- A remainder precedes the matching run, headed by e.
      have he_not : e ∉ fc := by
        have := dropWhile_head_eq_false p tail e preTail hdrop2
        simpa [hp] using this
      have hstep_e : splitStep fc
          ⟨[], (tail.takeWhile p).reverse ++ [d],
            (rev.takeWhile q).reverse, 1, true⟩ e =
          ⟨[e], (tail.takeWhile p).reverse ++ [d],
            (rev.takeWhile q).reverse, 0, false⟩ := by
        simp [splitStep, splitPrepend, he_not]
      have hmach2 : tail.foldl (splitStep fc)
          ⟨[], [d], (rev.takeWhile q).reverse, 1, true⟩ =
          ⟨preTail.reverse ++ [e], (tail.takeWhile p).reverse ++ [d],
            (rev.takeWhile q).reverse, 0, false⟩ := by
        conv_lhs =>
          rw [show tail = tail.takeWhile p ++ tail.dropWhile p from
            (List.takeWhile_append_dropWhile p tail).symm, hdrop2]
        rw [List.foldl_append, foldl_split_num fc _ hnumtail,
          List.foldl_cons, hstep_e, foldl_split_rest]
      simp only [splitNumberedName, splitNumberedNameRef, ← hfc, ← hrev,
        hmach1, hmach2, hdrop, hdrop2]
      simp [hq, hp, hd_mem, hpd, hdrop2, List.takeWhile_cons,
        List.dropWhile_cons, decide_not]

/-! ## Claim theorems -/

deriving instance DecidableEq for Except

/-- The row of the section 4.2 table a validated descriptor realizes:
(hasTransform, hasJoint, topTransform, follicleParent, controlNode). -/
def descriptorRow (t : FolJntType) :
    Bool × Bool × Except PyErr Char × Option Char × Char :=
  (t.hasTransform, t.hasJoint, t.topTransform, t.follicleParent,
    t.controlNode)

/-- C1 counterexample: the claim asserts that when the wrapped function
raises, runUndoable always re-raises the original error to the caller.
On the concrete raising outcome below, the wrapper closes its undo
chunk and queues the deferred error message, but the exception component
of its result is none - the bare return in the finally block suppresses
the re-raised exception, so the caller sees a normal return, not the
original error. -/
theorem c1_counterexample :
    runUndoable
        (some ("StandardError", ["No follicle setups were found!"])) =
      ([.openChunk, .callFn, .closeChunk,
        .deferredError "StandardError: No follicle setups were found!"],
       none) ∧
    (none : Option (String × List String)) ≠
      some ("StandardError", ["No follicle setups were found!"]) :=
  ⟨by decide, by decide⟩

/-- C1 amended: for every wrapped engine call, runUndoable closes its
undo boundary exactly once (and opens it exactly once), whether or not
the wrapped function raises; when the wrapped function raises, it
surfaces the deferred host-level error message (error kind plus
flattened single-line description) - but it then returns normally, the
bare return in the finally block suppressing the re-raised exception, so
the original error is never propagated to the caller. -/
theorem c1_undo_boundary (outcome : Option (String × List String)) :
    ((runUndoable outcome).1.count .closeChunk = 1) ∧
    ((runUndoable outcome).1.count .openChunk = 1) ∧
    ((runUndoable outcome).2 = none) ∧
    (runUndoable outcome).1 =
      (match outcome with
       | none => [.openChunk, .callFn, .closeChunk]
       | some (n, args) =>
           [.openChunk, .callFn, .closeChunk,
            .deferredError (deferredErrorMsg n args)]) := by
  rcases outcome with _ | ⟨n, args⟩
  · exact ⟨by decide, by decide, rfl, rfl⟩
  · refine ⟨?_, ?_, rfl, rfl⟩ <;>
      simp [runUndoable, List.count_cons]

/-- C2 counterexample: the claim asserts the constructed descriptor for
"t-j/f" has topTransform 'j' (the section 4.2 table row).  The code's
topTransform property returns 't' whenever the type string contains 't',
which "t-j/f" does, so the descriptor's topTransform is 't', not 'j'
(consistent with the source docstring: for t-j/f the follicle drives the
transform). -/
theorem c2_counterexample :
    (FolJntType.set "t-j/f").map FolJntType.topTransform =
      .ok (.ok 't') ∧
    (Except.ok (Except.ok 't') : Except PyErr (Except PyErr Char)) ≠
      .ok (.ok 'j') :=
  ⟨by decide, by decide⟩

/-- C2 amended: the four valid type strings yield exactly the table rows
(hasTransform, hasJoint, topTransform, follicleParent, controlNode) =
t/f: (yes, no, t, t, f); t/f-j: (yes, yes, t, t, j);
t-j/f: (yes, yes, t, j, j) - topTransform 't', amending the table's 'j';
j/f: (no, yes, j, j, j).  Assigning any type string outside these four
fails with an assertion error (a programming error, not a recoverable
input error); constructing with an empty string skips validation and
leaves the descriptor unset without raising. -/
theorem c2_type_table :
    ((FolJntType.set "t/f").map descriptorRow =
      .ok (true, false, .ok 't', some 't', 'f')) ∧
    ((FolJntType.set "t/f-j").map descriptorRow =
      .ok (true, true, .ok 't', some 't', 'j')) ∧
    ((FolJntType.set "t-j/f").map descriptorRow =
      .ok (true, true, .ok 't', some 'j', 'j')) ∧
    ((FolJntType.set "j/f").map descriptorRow =
      .ok (false, true, .ok 'j', some 'j', 'j')) ∧
    (∀ s : String, s ∉ validTypes →
      FolJntType.set s = .error (.assertionError
        (s ++ " is not a valid follicle joint type string!"))) ∧
    (FolJntType.new (some "") = .ok none) := by
  refine ⟨by decide, by decide, by decide, by decide, ?_, by decide⟩
  intro s hs
  simp [FolJntType.set, hs]

/-- C2 witness: the assertion branch of c2_type_table at the concrete
invalid type string "x/y". -/
theorem c2_type_table_witness :
    "x/y" ∉ validTypes ∧
    FolJntType.set "x/y" = .error (.assertionError
      ("x/y" ++ " is not a valid follicle joint type string!")) :=
  ⟨by decide, c2_type_table.2.2.2.2.1 "x/y" (by decide)⟩

/-- C3: for every unit state whose control node differs from the
follicle and exposes the parameter attributes: when both offsets are
settable and at least one is non-zero, freeze captures the follicle's
resolved parameters, zeroes both offsets and writes the captured values
into the control node's base parameters; when an offset is not settable
(locked or connected) it raises the precondition error and the base
parameters are left unchanged; when both offsets are already zero it is
a no-op that raises nothing. -/
theorem c3_freeze (s : FreezeState) (hCtrl : s.ctrlIsFol = false)
    (hAttr : s.ctrlHasParamAttr = true) :
    ((s.ou ≠ 0 ∨ s.ov ≠ 0) → s.ouSettable = true → s.ovSettable = true →
      freeze s =
        ({ s with ou := 0, ov := 0, pu := s.folPu, pv := s.folPv },
          .frozen)) ∧
    ((s.ou ≠ 0 ∨ s.ov ≠ 0) →
      (s.ouSettable = false ∨ s.ovSettable = false) →
      (freeze s).2 = .errLockedConnected ∧
      (freeze s).1.pu = s.pu ∧ (freeze s).1.pv = s.pv) ∧
    (s.ou = 0 → s.ov = 0 → freeze s = (s, .skippedZero)) := by
  have hguard : (!s.ctrlIsFol && s.ctrlHasParamAttr) = true := by
    rw [hCtrl, hAttr]
    rfl
  refine ⟨?_, ?_, ?_⟩
  · intro hnz hou hov
    simp only [freeze, hguard, if_true, if_pos hnz, hou, hov]
  · intro hnz hlock
    rcases hlock with h | h
    · simp only [freeze, hguard, if_true, if_pos hnz, h]
      exact ⟨rfl, rfl, rfl⟩
    · cases hou : s.ouSettable
      · simp only [freeze, hguard, if_true, if_pos hnz, hou]
        exact ⟨rfl, rfl, rfl⟩
      · simp only [freeze, hguard, if_true, if_pos hnz, hou, h]
        exact ⟨rfl, rfl, rfl⟩
  · intro hu hv
    have hz : ¬(s.ou ≠ 0 ∨ s.ov ≠ 0) := by simp [hu, hv]
    simp only [freeze, hguard, if_true, if_neg hz]

/-- C3 witness: freezing a concrete state with a non-zero U offset moves
the follicle's resolved parameters into the base parameters and zeroes
the offsets. -/
theorem c3_freeze_witness :
    freeze ⟨false, true, 1/10, 0, 2/5, 3/5, true, true, 1/2, 7/10⟩ =
      (⟨false, true, 0, 0, 1/2, 7/10, true, true, 1/2, 7/10⟩,
        .frozen) := by
  have h := (c3_freeze
    ⟨false, true, 1/10, 0, 2/5, 3/5, true, true, 1/2, 7/10⟩
    rfl rfl).1 (Or.inl (by norm_num)) rfl rfl
  exact h

/-- C4 counterexample: the claim asserts that when "opposing offsets" is
requested, the offset written to the mirror is sign-reflected on the
mirror axis.  With opposingOffsets requested and mirror axis 'u', the
offset pair (3/10, 1/5) is written verbatim as (3/10, 1/5): the
opposing-offsets entries carry uvIndex 2, which never equals the axis
value (0 or 1), so the reflection branch is never taken. -/
theorem c4_counterexample :
    copyOffsetsToMirror 'u' true (3/10) (1/5) = (3/10, 1/5) ∧
    (3/10 : ℚ) ≠ -(3/10) := by
  constructor
  · norm_num [copyOffsetsToMirror, offsetEntries, entryWrittenValue]
    decide
  · norm_num

/-- C4 amended: in copyValuesToMirror's offsets category (both units
exposing offset attributes, destinations writable), requesting "opposing
offsets" copies the offset U/V values verbatim to the mirror; NOT
requesting it sign-reflects (negates about 0) the offset on the
caller-specified mirror axis and copies the other verbatim - the
opposite of the claimed convention. -/
theorem c4_offset_mirroring (axis : Char) (ou ov : ℚ) :
    (copyOffsetsToMirror axis true ou ov = (ou, ov)) ∧
    (copyOffsetsToMirror 'u' false ou ov = (-ou, ov)) ∧
    (copyOffsetsToMirror 'v' false ou ov = (ou, -ov)) := by
  have hu : axisValOf 'u' = 0 := rfl
  have hv : axisValOf 'v' = 1 := rfl
  have hax : axisValOf axis = 1 ∨ axisValOf axis = 0 := by
    by_cases h : axis = 'v' <;> simp [axisValOf, h]
  refine ⟨?_, ?_, ?_⟩
  · rcases hax with h | h <;>
      simp [copyOffsetsToMirror, offsetEntries, entryWrittenValue, h]
  · simp [copyOffsetsToMirror, offsetEntries, entryWrittenValue, hu]
  · simp [copyOffsetsToMirror, offsetEntries, entryWrittenValue, hv]

/-- C5: evaluating the transferToPatch closest-point path at its failing
input - closestPt true with no explicit uv (the ordinary direct call,
e.g. transferToPatch(patch) with defaults) - raises NameError: line 1064
reads the name outVals, which is neither a local of the method nor a
module-level name of follicleJnts.py, instead of the freshly computed
closest-point uv list outUVVals bound on the previous line.  The spec's
described behavior (use the computed closest-point uv, subtract the
implied offset, write the base parameters) is the evident intent; the
code path as written cannot reach it. -/
theorem c5_transfer_closest_uv_name_error :
    transferToPatchNewUV true none [(1/4, 3/4)] =
      .error (.nameError "global name 'outVals' is not defined") ∧
    "outVals" ∉ transferToPatchLocalNames ∧
    "outVals" ∉ follicleJntsModuleNames :=
  ⟨by decide, by decide, by decide⟩

/-- C6: for every NURBS patch with a non-degenerate parameter range
(Python float division is only defined off zero-length ranges): a
[0,1]x[0,1] range returns the input uv unchanged for any warning-only
flag; a range that is not [0,1] on both axes, with warning-only false,
rescales per axis as raw / (range length) + range minimum; and a
non-NURBS patch fails with the invalid-input error. -/
theorem c6_normalisedNurbsUV (patch : Patch) (uv : ℚ × ℚ)
    (warningOnly : Bool) (_hU : patch.minU < patch.maxU)
    (_hV : patch.minV < patch.maxV) :
    (patch.isNurbsSurface = true →
      patch.minU = 0 → patch.maxU = 1 → patch.minV = 0 →
      patch.maxV = 1 →
      normalisedNurbsUV patch uv warningOnly = .ok uv) ∧
    (patch.isNurbsSurface = true →
      ¬(patch.minU = 0 ∧ patch.maxU = 1 ∧ patch.minV = 0 ∧
        patch.maxV = 1) →
      normalisedNurbsUV patch uv false =
        .ok (uv.1 / (patch.maxU - patch.minU) + patch.minU,
             uv.2 / (patch.maxV - patch.minV) + patch.minV)) ∧
    (patch.isNurbsSurface = false →
      normalisedNurbsUV patch uv warningOnly =
        .error (.standardError
          "Patch must be a nurbSurface shape PyNode!")) := by
  refine ⟨?_, ?_, ?_⟩
  · intro hn h1 h2 h3 h4
    simp [normalisedNurbsUV, hn, h1, h2, h3, h4]
  · intro hn hrange
    simp [normalisedNurbsUV, hn, hrange]
  · intro hn
    simp [normalisedNurbsUV, hn]

/-- C6 witness: the rescale branch of c6_normalisedNurbsUV on the
[0,2]x[0,1]-range surface at input (1, 1/2), yielding (1/2, 1/2). -/
theorem c6_normalisedNurbsUV_witness :
    ((0:ℚ) < 2 ∧ (0:ℚ) < 1) ∧
    normalisedNurbsUV ⟨true, 0, 2, 0, 1⟩ (1, 1/2) false =
      .ok (1/2, 1/2) := by
  refine ⟨by norm_num, ?_⟩
  have h := (c6_normalisedNurbsUV ⟨true, 0, 2, 0, 1⟩ (1, 1/2) false
    (by norm_num) (by norm_num)).2.1 rfl (by norm_num)
  rw [h]
  norm_num

/-- C7 counterexample: the claim asserts that every call in which some
axis is edge-bounded and requests fewer than 2 rows fails with an
invalid-input error before creating any unit.  With the U axis
edge-bounded and requesting 0 rows (0 < 2), the validation check
uvRows[i] - edgeBounded[i] == 0 evaluates to -1 == 0 and does not fire:
the call returns normally, creating zero units instead of raising. -/
theorem c7_counterexample :
    newFollicleGrid (0, 1) (1, 0) uvRangeDefault = .ok [] ∧
    (0 : Int) < 2 :=
  ⟨by decide, by decide⟩

/-- C7 amended: newFollicleGrid(uvRows=[2,1], edgeBounded=[1,0]) over
the default full unit square creates exactly two units, at uv (0, 1/2)
and (1, 1/2); and whenever some axis requests a row count equal to its
edge-bounded flag - in particular an edge-bounded axis requesting
exactly 1 row - the operation fails with the invalid-input error before
creating any unit (an edge-bounded axis requesting 0 rows instead
passes validation and creates no units). -/
theorem c7_grid :
    (newFollicleGrid (2, 1) (1, 0) uvRangeDefault =
      .ok [(0, 1/2), (1, 1/2)]) ∧
    (∀ (r e : Int) (rng : UVRange),
      newFollicleGrid (1, r) (1, e) rng =
        .error (.standardError "Minimum 2 rows for edge-bounded rows!")) ∧
    (∀ (r e : Int) (rng : UVRange),
      newFollicleGrid (r, 1) (e, 1) rng =
        .error (.standardError
          "Minimum 2 rows for edge-bounded rows!")) := by
  refine ⟨?_, ?_, ?_⟩
  · have h2 : Int.toNat 2 = 2 := rfl
    have h1 : Int.toNat 1 = 1 := rfl
    norm_num [newFollicleGrid, uvRangeDefault, h2, h1, List.range_succ]
  · intro r e rng
    simp [newFollicleGrid]
  · intro r e rng
    simp [newFollicleGrid]

/-- C8: for every input string and every (digit or alternate) character
set, splitNumberedName splits the input into (prefix piece, number,
suffix piece) where the number is the last embedded run of matching
characters, the suffix piece is the trailing characters after that run,
and the prefix piece is the remainder (this from-the-end decomposition is
splitNumberedNameRef, taken verbatim from the spec's words); when no
matching run exists the whole input is returned as the prefix piece with
the other pieces empty.  In particular
splitNumberedName "this45name" = ("this", "45", "name") and
splitNumberedName "noNumbers" = ("noNumbers", "", ""). -/
theorem c8_splitNumberedName_spec :
    (∀ (name : List Char) (alt : Option (List Char)),
      splitNumberedName name alt =
        splitNumberedNameRef name (findCharsOf alt)) ∧
    splitNumberedName "this45name".toList none =
      ("this".toList, "45".toList, "name".toList) ∧
    splitNumberedName "noNumbers".toList none =
      ("noNumbers".toList, [], []) := by
  refine ⟨splitNumberedName_eq_ref, by decide, by decide⟩

/-- C10: for every input string and every character set, the three pieces
returned by splitNumberedName concatenate back to exactly the input:
the split never drops, duplicates, or reorders a character. -/
theorem c10_split_concat (name : List Char) (alt : Option (List Char)) :
    (splitNumberedName name alt).1 ++ (splitNumberedName name alt).2.1 ++
      (splitNumberedName name alt).2.2 = name := by
  rw [splitNumberedName_eq_ref]
  simp only [splitNumberedNameRef]
  set fc := findCharsOf alt with hfc
  set q : Char → Bool := fun c => decide (c ∉ fc) with hq
  set p : Char → Bool := fun c => decide (c ∈ fc) with hp
  set rev := name.reverse with hrev
  set sufR := rev.takeWhile q with hsufR
  set rest := rev.dropWhile q with hrest
  set numR := rest.takeWhile p with hnumR
  set preR := rest.dropWhile p with hpreR
  have hA : numR ++ preR = rest := List.takeWhile_append_dropWhile p rest
  have hB : sufR ++ rest = rev := List.takeWhile_append_dropWhile q rev
  split
  · simp
  · rw [show preR.reverse ++ numR.reverse ++ sufR.reverse =
        (sufR ++ (numR ++ preR)).reverse by
      simp [List.reverse_append, List.append_assoc]]
    rw [hA, hB, hrev, List.reverse_reverse]

/-- C9: joinNumberedName(pre="pizza_", num=23, suf="_order",
padding=3) = "pizza_023_order", and the same through the
template "pizza_#_order"; a non-empty nameDef template without a '#'
fails with a TypeError (the host surfaces it as an invalid-input error)
for every prefix/suffix/number/padding; and when the number is none or
the empty string, the number segment is omitted entirely (the default
format then yields exactly prefix ++ suffix). -/
theorem c9_joinNumberedName_spec :
    (joinNumberedName (some "pizza_".toList) (some (.intNum 23))
        (some "_order".toList) 3 defaultNameFormat none =
      .ok "pizza_023_order".toList) ∧
    (joinNumberedName none (some (.intNum 23)) none 3 defaultNameFormat
        (some "pizza_#_order".toList) = .ok "pizza_023_order".toList) ∧
    (∀ (nd : List Char) (pre suf : Option (List Char))
        (n : Option Int) (pad : ℕ),
      nd ≠ [] → '#' ∉ nd →
      joinNumberedName pre (n.map NumArg.intNum) suf pad
          defaultNameFormat (some nd) =
        .error (.typeError
          "A nameTemplate must contain a # symbol for the number!")) ∧
    (∀ (pre suf : List Char) (pad : ℕ),
      joinNumberedName (some pre) none (some suf) pad
          defaultNameFormat none = .ok (pre ++ suf)) ∧
    (∀ (pre suf : List Char) (pad : ℕ),
      joinNumberedName (some pre) (some (.strNum [])) (some suf) pad
          defaultNameFormat none = .ok (pre ++ suf)) := by
  refine ⟨by rfl, by rfl, ?_, ?_, ?_⟩
  · intro nd pre suf n pad hne hnotin
    cases nd with
    | nil => exact absurd rfl hne
    | cons c tl =>
      cases n with
      | none => simp [joinNumberedName, numStrOf, hnotin]
      | some k => simp [joinNumberedName, numStrOf, hnotin]
  · intro pre suf pad
    show Except.ok (pyFormat defaultNameFormat pre [] suf) = _
    have h : pyFormat defaultNameFormat pre [] suf =
        pre ++ ([] ++ (suf ++ [])) := rfl
    rw [h]
    simp
  · intro pre suf pad
    show Except.ok (pyFormat defaultNameFormat pre [] suf) = _
    have h : pyFormat defaultNameFormat pre [] suf =
        pre ++ ([] ++ (suf ++ [])) := rfl
    rw [h]
    simp

/-- C9 witness: the TypeError branch of c9_joinNumberedName_spec at the
concrete hash-free template "pizza". -/
theorem c9_joinNumberedName_witness :
    ("pizza".toList ≠ [] ∧ '#' ∉ "pizza".toList) ∧
    joinNumberedName none (some (.intNum 5)) none 2 defaultNameFormat
        (some "pizza".toList) =
      .error (.typeError
        "A nameTemplate must contain a # symbol for the number!") :=
  ⟨⟨by decide, by decide⟩,
    c9_joinNumberedName_spec.2.2.1 "pizza".toList none none (some 5) 2
      (by decide) (by decide)⟩

end FollicleJnts



